import Mathlib

/-!
Shallow embedding of the Emotet configuration parser
(`modules/processing/parsers/mwcp/parsers/Emotet.py`).

Byte buffers are `List Nat` with every element `< 256` (Python byte
strings).  Python exceptions that the source does not catch are made
explicit through `Except PyErr`.  The two external collaborators are
abstracted exactly at the interfaces the source uses them:
  * the yara engine output is a list of matches, each a rule name with
    (offset, identifier) pairs (`match.strings` items); the function
    `yara_scan` below is the source's filtering of that output;
  * `pefile`'s `pe.get_offset_from_rva` is a parameter
    `resolve : Int → Option Nat`, `none` modelling a raised exception.

The driver `emotetRun` takes the composite `scan : String → Option Nat`
(the value of `yara_scan filebuf name` for each signature name); the
source computes `extract_emotet_rsakey` once before dispatching, and as
that computation is pure we may re-evaluate it in each dispatch branch
without changing the observable result.
-/

/-- Python errors that escape or are absorbed in the source.
`structError` is `struct.error` from `struct.unpack` on a slice of the
wrong length, `nameError` is `NameError` (an unbound local name or the
undefined `PEFormatError` name in an `except` clause), `derError` is the
`ValueError`/`TypeError`/`IndexError` family raised by
`asn1.DerSequence.decode` / `RSA.construct` on malformed key material.
`fuelExhausted` is an artifact of the fuel-based loop encodings; the
initial fuel `buf.length + 1` always exceeds the possible number of
iterations, so it is never the value of a top-level decoder. -/
inductive PyErr where
  | structError
  | nameError
  | derError
  | fuelExhausted
deriving DecidableEq, Repr

/-- Python slice `buf[a:b]` for `0 ≤ a ≤ b` (silently truncates). -/
def pySlice (buf : List Nat) (a b : Nat) : List Nat :=
  (buf.take b).drop a

/-- Little-endian value of a byte list. -/
def leVal : List Nat → Nat
  | [] => 0
  | b :: r => b + 256 * leVal r

/-- Big-endian value of a byte list (DER integer payloads). -/
def beNat (l : List Nat) : Nat :=
  l.foldl (fun acc b => acc * 256 + b) 0

/-- `struct.unpack` of an `n`-byte little-endian unsigned field at
offset `o`: succeeds exactly when the slice `buf[o:o+n]` has `n`
bytes, mirroring `struct.error` otherwise. -/
def readLE (n : Nat) (buf : List Nat) (o : Nat) : Option Nat :=
  let s := pySlice buf o (o + n)
  if s.length = n then some (leVal s) else none

/-- Two's-complement reading of an unsigned 32-bit value (format 'i'). -/
def toSigned32 (v : Nat) : Int :=
  if v < 2147483648 then (v : Int) else (v : Int) - 4294967296

/-- Two's-complement reading of an unsigned 16-bit value (format 'h'). -/
def toSigned16 (v : Nat) : Int :=
  if v < 32768 then (v : Int) else (v : Int) - 65536

/-- Two's-complement reading of an unsigned 8-bit value (format 'b'). -/
def toSigned8 (v : Nat) : Int :=
  if v < 128 then (v : Int) else (v : Int) - 256

/-- `struct.unpack('i', buf[o:o+4])` — signed 32-bit little-endian. -/
def readS4 (buf : List Nat) (o : Nat) : Option Int :=
  (readLE 4 buf o).map toSigned32

/-- `struct.unpack('b', buf[o:o+1])` — signed byte. -/
def readS1 (buf : List Nat) (o : Nat) : Option Int :=
  (readLE 1 buf o).map toSigned8

/-- `struct.pack('<I', v)` for `v < 2^32`. -/
def u32le (v : Nat) : List Nat :=
  [v % 256, v / 256 % 256, v / 65536 % 256, v / 16777216 % 256]

/-- `socket.inet_ntoa(struct.pack('!L', ip))`: the 32-bit value is
repacked big-endian and printed as a dotted quad. -/
def inet_ntoa (ip : Nat) : String :=
  toString (ip / 16777216 % 256) ++ "." ++ toString (ip / 65536 % 256) ++ "."
    ++ toString (ip / 256 % 256) ++ "." ++ toString (ip % 256)

/-- `xor_data(data, key)` (source lines 60-65): byte `i` of `data` is
xored with byte `i mod len(key)` of `key`.  `i` is the running index. -/
def xorDataAux (key : List Nat) : Nat → List Nat → List Nat
  | _, [] => []
  | i, b :: rest => (b ^^^ key.getD (i % key.length) 0) :: xorDataAux key (i + 1) rest

def xor_data (data key : List Nat) : List Nat :=
  xorDataAux key 0 data

/-- One DER element as pycrypto's `DerSequence.decode` keeps it: INTEGER
elements (tag 0x02) become non-negative integers, anything else keeps
its tag and payload. -/
inductive DerElem where
  | int (n : Nat)
  | other (tag : Nat) (payload : List Nat)
deriving DecidableEq, Repr

/-- DER length field: one byte `< 0x80` is the length itself, `0x80+k`
prefixes `k` big-endian length bytes; the indefinite form (0x80) and a
truncated long form fail. -/
def derReadLen : List Nat → Option (Nat × List Nat)
  | [] => none
  | b :: rest =>
    if b < 128 then some (b, rest)
    else
      let n := b - 128
      if n = 0 then none
      else if rest.length < n then none
      else some (beNat (rest.take n), rest.drop n)

/-- Parse the concatenated elements of a sequence payload.  Each
element consumes at least its tag byte, so fuel `payload.length + 1`
can never run out. -/
def derParseElems : Nat → List Nat → Option (List DerElem)
  | _, [] => some []
  | 0, _ :: _ => none
  | fuel + 1, tag :: rest =>
    match derReadLen rest with
    | none => none
    | some (len, rest1) =>
      if rest1.length < len then none
      else
        match derParseElems fuel (rest1.drop len) with
        | none => none
        | some elems =>
          let payload := rest1.take len
          some ((if tag = 2 then DerElem.int (beNat payload)
                 else DerElem.other tag payload) :: elems)

/-- `asn1.DerSequence().decode(d)`: tag 0x30, a length field, then the
elements of the payload. -/
def derDecodeSeq (d : List Nat) : Option (List DerElem) :=
  match d with
  | 48 :: rest =>
    match derReadLen rest with
    | none => none
    | some (len, rest1) =>
      if rest1.length < len then none
      else derParseElems (len + 1) (rest1.take len)
  | _ => none

/-- `seq.decode(d); RSA.construct((seq[0], seq[1]))`: needs a DER
sequence whose first two elements are INTEGERs; any other outcome is a
raised exception in the source. -/
def derDecodeTwoInts (d : List Nat) : Option (Nat × Nat) :=
  match derDecodeSeq d with
  | some (DerElem.int m :: DerElem.int e :: _) => some (m, e)
  | _ => none

/-- The result of `seq.decode(rsa_key)` + `RSA.construct` as the
`$ref_rsa` branch uses it: failure raises (uncaught in the source). -/
def derToRes (l : List Nat) : Except PyErr (Nat × Nat) :=
  match derDecodeTwoInts l with
  | some k => Except.ok k
  | none => Except.error PyErr.derError

/-- The identifiers of the strings defined by `rule_source`
(source lines 32-39). -/
def ruleStrings : List String :=
  ["$snippet1", "$snippet2", "$snippet3", "$snippet4", "$snippet5",
   "$snippet6", "$snippet7", "$ref_rsa"]

/-- One yara match: the rule name and the `match.strings` items, each an
(offset, identifier) pair. -/
structure YMatch where
  rule : String
  strings : List (Nat × String)
deriving DecidableEq

/-- First `match.strings` item with the wanted identifier. -/
def findString (name : String) : List (Nat × String) → Option Nat
  | [] => none
  | (off, ident) :: rest =>
    if ident = name then some off else findString name rest

/-- `yara_scan(raw_data, rule_name)` (source lines 49-58) applied to the
engine's match list: return the offset of the first item named
`rule_name` inside a match of rule `Emotet`, else fall through to
`None`. -/
def yara_scan (ms : List YMatch) (rule_name : String) : Option Nat :=
  match ms with
  | [] => none
  | m :: rest =>
    if m.rule = "Emotet" then
      match findString rule_name m.strings with
      | some off => some off
      | none => yara_scan rest rule_name
    else yara_scan rest rule_name

/-- The trailing 7 fixed bytes of the `extract_emotet_rsakey` regex:
`\x02\x03\x01\x00\x01\x00\x00`. -/
def rsaTailPattern : List Nat := [2, 3, 1, 0, 1, 0, 0]

/-- The regex `\x30[\x00-\xff]{100}\x02\x03\x01\x00\x01\x00\x00`
matches at `i` iff 108 bytes fit, byte `i` is 0x30 and the last 7 bytes
are the fixed tail. -/
def rsaPatternAt (buf : List Nat) (i : Nat) : Bool :=
  decide (i + 108 ≤ buf.length) && (buf.getD i 0 == 48)
    && (pySlice buf (i + 101) (i + 108) == rsaTailPattern)

/-- Leftmost regex match position (`re.findall`'s first match). -/
def findRsaPattern (buf : List Nat) : Option Nat :=
  (List.range buf.length).find? (fun i => rsaPatternAt buf i)

/-- `extract_emotet_rsakey` (source lines 70-76): take the first 106
bytes of the first match and decode them as a two-integer DER sequence.
A decode failure there is an uncaught exception. -/
def extract_emotet_rsakey (buf : List Nat) : Except PyErr (Option (Nat × Nat)) :=
  match findRsaPattern buf with
  | none => Except.ok none
  | some i =>
    match derDecodeTwoInts (pySlice buf i (i + 106)) with
    | some k => Except.ok (some k)
    | none => Except.error PyErr.derError

/-- The fallback-signature record loop (source lines 121-135 and its
four copies): the 4-byte address read is inside `try`/bare `except`
(break), the 2-byte port read is not (a short slice raises), the port is
unsigned ('H'), an empty rendered string would break the loop. -/
def snippetLoop (buf : List Nat) : Nat → Nat → Except PyErr (List String)
  | 0, _ => Except.error PyErr.fuelExhausted
  | fuel + 1, off =>
    match readLE 4 buf off with
    | none => Except.ok []
    | some ip =>
      if ip = 0 then Except.ok []
      else
        let c2_address := inet_ntoa ip
        match readLE 2 buf (off + 4) with
        | none => Except.error PyErr.structError
        | some v =>
          let port := toString v
          if c2_address ≠ "" ∧ port ≠ "" then
            match snippetLoop buf fuel (off + 8) with
            | Except.error e => Except.error e
            | Except.ok rest => Except.ok ((c2_address ++ ":" ++ port) :: rest)
          else Except.ok []

def decodeSnippet (buf : List Nat) (off : Nat) : Except PyErr (List String) :=
  snippetLoop buf (buf.length + 1) off

/-- The primary `$c2list` loop body (source lines 97-105): no
`try`/`except` at all, the port is signed ('h'), a falsy string merely
skips the emission (no break), the next address is read at the end of
the body. -/
def primaryLoop (buf : List Nat) : Nat → Nat → Nat → Except PyErr (List String)
  | 0, _, _ => Except.error PyErr.fuelExhausted
  | fuel + 1, off, ip =>
    if ip = 0 then Except.ok []
    else
      let c2_address := inet_ntoa ip
      match readLE 2 buf (off + 4) with
      | none => Except.error PyErr.structError
      | some v =>
        let port := toString (toSigned16 v)
        match readLE 4 buf (off + 8) with
        | none => Except.error PyErr.structError
        | some ip2 =>
          match primaryLoop buf fuel (off + 8) ip2 with
          | Except.error e => Except.error e
          | Except.ok rest =>
            Except.ok (if c2_address ≠ "" ∧ port ≠ ""
                       then (c2_address ++ ":" ++ port) :: rest else rest)

/-- Source lines 95-105: initial unsigned address read (uncaught on a
short slice), then the loop. -/
def decodePrimary (buf : List Nat) (off : Nat) : Except PyErr (List String) :=
  match readLE 4 buf off with
  | none => Except.error PyErr.structError
  | some ip => primaryLoop buf (buf.length + 1) off ip

/-- The `$snippet3` branch (source lines 110-135).  In the
`> 0x20000` arm line 113 assigns the masked value to `c2_list_va`, so
`c2_list_rva` is an unbound local at line 117: `NameError`.  When
`get_offset_from_rva` raises, the handler `except PEFormatError`
references a name that is never imported, so the handling itself raises
`NameError`. -/
def snippet3Branch (buf : List Nat) (ib : Int) (resolve : Int → Option Nat)
    (a : Nat) : Except PyErr (List String) :=
  match readS4 buf (a + 2) with
  | none => Except.error PyErr.structError
  | some va =>
    if va - ib > 131072 then Except.error PyErr.nameError
    else
      match resolve (va - ib) with
      | none => Except.error PyErr.nameError
      | some off => decodeSnippet buf off

/-- The `$snippet4`/`$snippet5`/`$snippet6` branches and the pointer
part of `$snippet7` (source lines 138-164, 166-193, 195-222, 231-255):
read the signed VA at `anchor + vaOff`, mask with 0xffff when the
difference from the image base exceeds 0x20000, translate, decode.  As
in `$snippet3`, a raised `PEFormatError` hits the undefined handler
name. -/
def genericSnippetBranch (buf : List Nat) (ib : Int) (resolve : Int → Option Nat)
    (vaOff : Nat) (a : Nat) : Except PyErr (List String) :=
  match readS4 buf (a + vaOff) with
  | none => Except.error PyErr.structError
  | some va =>
    let rva : Int := if va - ib > 131072 then Int.land va 65535 else va - ib
    match resolve rva with
    | none => Except.error PyErr.nameError
    | some off => decodeSnippet buf off

/-- The `$snippet7` branch (source lines 226-255): the pointer distance
is 26, or 27 when the signed byte at `anchor + 29` is non-zero. -/
def snippet7Branch (buf : List Nat) (ib : Int) (resolve : Int → Option Nat)
    (a : Nat) : Except PyErr (List String) :=
  match readS1 buf (a + 29) with
  | none => Except.error PyErr.structError
  | some hb =>
    let delta := if hb ≠ 0 then 27 else 26
    genericSnippetBranch buf ib resolve delta a

/-- The `if refc2list ... else` cascade over the alternative signatures
(source lines 108-255): each alternative is consulted only when every
earlier one was absent. -/
def snippetChain (buf : List Nat) (ib : Int) (resolve : Int → Option Nat)
    (scan : String → Option Nat) : Except PyErr (List String) :=
  match scan "$snippet3" with
  | some a => snippet3Branch buf ib resolve a
  | none =>
    match scan "$snippet4" with
    | some a => genericSnippetBranch buf ib resolve 8 a
    | none =>
      match scan "$snippet5" with
      | some a => genericSnippetBranch buf ib resolve 5 a
      | none =>
        match scan "$snippet6" with
        | some a => genericSnippetBranch buf ib resolve 15 a
        | none =>
          match scan "$snippet7" with
          | some a => snippet7Branch buf ib resolve a
          | none => Except.ok []

/-- What the run pushed to the reporter: endpoint strings in emission
order and recovered (modulus, exponent) pairs. -/
structure Report where
  addresses : List String
  rsaKeys : List (Nat × Nat)
deriving DecidableEq

def keysOf : Option (Nat × Nat) → List (Nat × Nat)
  | none => []
  | some k => [k]

/-- The decode at the resolved `$ref_rsa` offset (source lines
267-272): `key` and the xored size field are unsigned 32-bit reads
(uncaught on a short slice), the blob slice silently truncates, the
unmasked blob goes to the DER decoder whose failure is uncaught. -/
def refRsaDecodeAt (buf : List Nat) (o : Nat) : Except PyErr (Nat × Nat) :=
  match readLE 4 buf o with
  | none => Except.error PyErr.structError
  | some key =>
    match readLE 4 buf (o + 4) with
    | none => Except.error PyErr.structError
    | some w =>
      let xorsize := key ^^^ w
      let blob := pySlice buf (o + 8) (o + 8 + xorsize)
      derToRes (xor_data blob (u32le key))

/-- Source lines 257-272: attempted only when the direct key search
found nothing; a translation failure hits a bare `except: return`
(absorbed), everything after it is uncovered. -/
def refRsaPart (buf : List Nat) (ib : Int) (resolve : Int → Option Nat)
    (scan : String → Option Nat) (pem : Option (Nat × Nat))
    (addrs : List String) : Except PyErr Report :=
  match pem with
  | some k => Except.ok (Report.mk addrs [k])
  | none =>
    match scan "$ref_rsa" with
    | none => Except.ok (Report.mk addrs [])
    | some r =>
      match readS4 buf (r + 28) with
      | none => Except.error PyErr.structError
      | some va =>
        match resolve (va - ib) with
        | none => Except.ok (Report.mk addrs [])
        | some o =>
          match refRsaDecodeAt buf o with
          | Except.ok k => Except.ok (Report.mk addrs [k])
          | Except.error e => Except.error e

/-- The `$c2list` branch of `run` (source lines 92-106): decode the
primary list at the match offset and `return`, so the `$ref_rsa`
section is skipped; the direct key (if any) was already reported. -/
def primaryOutcome (buf : List Nat) (a : Nat) : Except PyErr Report :=
  match extract_emotet_rsakey buf with
  | Except.error e => Except.error e
  | Except.ok pem =>
    match decodePrimary buf a with
    | Except.error e => Except.error e
    | Except.ok addrs => Except.ok (Report.mk addrs (keysOf pem))

/-- The `$c2list`-absent remainder of `run` (source lines 107-272). -/
def fallbackOutcome (buf : List Nat) (ib : Int) (resolve : Int → Option Nat)
    (scan : String → Option Nat) : Except PyErr Report :=
  match extract_emotet_rsakey buf with
  | Except.error e => Except.error e
  | Except.ok pem =>
    match snippetChain buf ib resolve scan with
    | Except.error e => Except.error e
    | Except.ok addrs => refRsaPart buf ib resolve scan pem addrs

/-- `Emotet.run` (source lines 82-272) after the container parse, as a
function of the buffer, the image base, the VA translator and the
per-signature scan outcomes. -/
def emotetRun (buf : List Nat) (ib : Int) (resolve : Int → Option Nat)
    (scan : String → Option Nat) : Except PyErr Report :=
  match scan "$c2list" with
  | some a => primaryOutcome buf a
  | none => fallbackOutcome buf ib resolve scan

/-- A well-formed 8-byte C2 record: 4 address bytes (little-endian in
the file), 2 port bytes, 2 padding bytes. -/
structure C2Rec where
  a0 : Nat
  a1 : Nat
  a2 : Nat
  a3 : Nat
  p0 : Nat
  p1 : Nat
  x0 : Nat
  x1 : Nat
deriving DecidableEq

def C2Rec.flat (r : C2Rec) : List Nat :=
  [r.a0, r.a1, r.a2, r.a3, r.p0, r.p1, r.x0, r.x1]

def C2Rec.wf (r : C2Rec) : Prop :=
  r.a0 < 256 ∧ r.a1 < 256 ∧ r.a2 < 256 ∧ r.a3 < 256 ∧ r.p0 < 256 ∧ r.p1 < 256
    ∧ ¬(r.a0 = 0 ∧ r.a1 = 0 ∧ r.a2 = 0 ∧ r.a3 = 0)

instance (r : C2Rec) : Decidable r.wf := by
  unfold C2Rec.wf
  infer_instance

/-- The dotted-quad rendering of a record's address: the low file byte
is the last octet (network-order repacking of the little-endian read). -/
def C2Rec.addrStr (r : C2Rec) : String :=
  toString r.a3 ++ "." ++ toString r.a2 ++ "." ++ toString r.a1 ++ "." ++ toString r.a0

/-- Endpoint string with the unsigned port (every fallback branch). -/
def C2Rec.epU (r : C2Rec) : String :=
  r.addrStr ++ ":" ++ toString (r.p0 + 256 * r.p1)

/-- Endpoint string with the signed port (the primary branch). -/
def C2Rec.epS (r : C2Rec) : String :=
  r.addrStr ++ ":" ++ toString (toSigned16 (r.p0 + 256 * r.p1))

def flatRecords : List C2Rec → List Nat
  | [] => []
  | r :: rs => r.flat ++ flatRecords rs

/-- The little-endian address value of the first record (0 at the
sentinel). -/
def headIp : List C2Rec → Nat
  | [] => 0
  | r :: _ => leVal [r.a0, r.a1, r.a2, r.a3]

/-! ### Basic lemmas about the byte-level primitives -/

lemma pySlice_append (pre l rest : List Nat) :
    pySlice (pre ++ (l ++ rest)) pre.length (pre.length + l.length) = l := by
  induction pre with
  | nil =>
    simp only [pySlice, List.nil_append, List.length_nil, Nat.zero_add, List.drop_zero]
    exact List.take_left l rest
  | cons a pre ih =>
    simp only [pySlice, List.cons_append, List.length_cons] at *
    have h1 : pre.length + 1 + l.length = (pre.length + l.length) + 1 := by omega
    rw [h1, List.take_succ_cons, List.drop_succ_cons]
    exact ih

lemma readLE_at (n : Nat) (buf pre l rest : List Nat) (o : Nat)
    (hbuf : buf = pre ++ (l ++ rest)) (ho : o = pre.length) (hl : l.length = n) :
    readLE n buf o = some (leVal l) := by
  subst hbuf ho hl
  simp only [readLE]
  rw [pySlice_append]
  simp

lemma readLE_none_of_short (n : Nat) (buf : List Nat) (o : Nat)
    (h : buf.length < o + n) (hn : 0 < n) : readLE n buf o = none := by
  simp only [readLE]
  have hlen : (pySlice buf o (o + n)).length = min (o + n) buf.length - o := by
    simp [pySlice]
  rw [if_neg]
  omega

lemma pySlice_length (buf : List Nat) (a b : Nat) :
    (pySlice buf a b).length = min b buf.length - a := by
  simp [pySlice]

lemma mem_pySlice (buf : List Nat) (a b x : Nat) (h : x ∈ pySlice buf a b) :
    x ∈ buf := by
  simp only [pySlice] at h
  exact List.mem_of_mem_take (List.mem_of_mem_drop h)

lemma leVal_lt (l : List Nat) (h : ∀ b ∈ l, b < 256) :
    leVal l < 256 ^ l.length := by
  induction l with
  | nil => simp [leVal]
  | cons b r ih =>
    have hb : b < 256 := h b (List.mem_cons_self b r)
    have hr : leVal r < 256 ^ r.length := ih (fun x hx => h x (List.mem_cons_of_mem b hx))
    simp only [leVal, List.length_cons]
    calc b + 256 * leVal r < 256 * (leVal r + 1) := by omega
      _ ≤ 256 * 256 ^ r.length := Nat.mul_le_mul_left 256 hr
      _ = 256 ^ (r.length + 1) := by ring

lemma readLE_lt (n : Nat) (buf : List Nat) (o v : Nat)
    (hb : ∀ b ∈ buf, b < 256) (h : readLE n buf o = some v) : v < 256 ^ n := by
  simp only [readLE] at h
  split at h
  case isTrue hlen =>
    have hv : v = leVal (pySlice buf o (o + n)) := by
      simpa using h.symm
    subst hv
    have := leVal_lt (pySlice buf o (o + n))
      (fun b hbm => hb b (mem_pySlice buf o (o + n) b hbm))
    rwa [hlen] at this
  case isFalse => exact absurd h (by simp)

lemma leVal_u32le (v : Nat) (h : v < 4294967296) : leVal (u32le v) = v := by
  simp only [u32le, leVal]
  omega

lemma u32le_length (v : Nat) : (u32le v).length = 4 := by
  simp [u32le]

lemma xorDataAux_length (key : List Nat) (i : Nat) (d : List Nat) :
    (xorDataAux key i d).length = d.length := by
  induction d generalizing i with
  | nil => simp [xorDataAux]
  | cons b r ih => simp [xorDataAux, ih]

lemma xor_data_length (d key : List Nat) : (xor_data d key).length = d.length :=
  xorDataAux_length key 0 d

lemma xorDataAux_invol (key : List Nat) (i : Nat) (d : List Nat) :
    xorDataAux key i (xorDataAux key i d) = d := by
  induction d generalizing i with
  | nil => simp [xorDataAux]
  | cons b r ih =>
    simp only [xorDataAux]
    rw [Nat.xor_cancel_right]
    rw [ih]

lemma xor_data_invol (d key : List Nat) : xor_data (xor_data d key) key = d :=
  xorDataAux_invol key 0 d

/-! ### Rendered strings are never empty (the `if c2_address and port`
truthiness test in the source always passes) -/

lemma toDigitsCore_length_le (b f : Nat) :
    ∀ (n : Nat) (acc : List Char), acc.length ≤ (Nat.toDigitsCore b f n acc).length := by
  induction f with
  | zero => intro n acc; simp [Nat.toDigitsCore]
  | succ f ih =>
    intro n acc
    simp only [Nat.toDigitsCore]
    split
    · simp
    · calc acc.length ≤ (Nat.digitChar (n % b) :: acc).length := by simp
        _ ≤ _ := ih (n / b) (Nat.digitChar (n % b) :: acc)

lemma natRepr_length_pos (n : Nat) : 0 < (Nat.repr n).length := by
  show 0 < (Nat.toDigits 10 n).asString.length
  show 0 < (Nat.toDigits 10 n).length
  show 0 < (Nat.toDigitsCore 10 (n + 1) n []).length
  simp only [Nat.toDigitsCore]
  split
  · simp
  · calc 0 < (Nat.digitChar (n % 10) :: ([] : List Char)).length := by simp
      _ ≤ _ := toDigitsCore_length_le 10 n (n / 10) _

lemma toString_nat_length_pos (n : Nat) : 0 < (toString n : String).length :=
  natRepr_length_pos n

lemma toString_nat_ne_empty (n : Nat) : (toString n : String) ≠ "" := by
  intro h
  have hl := congrArg String.length h
  have := toString_nat_length_pos n
  simp only [String.length_empty] at hl
  exact absurd hl (by omega)

lemma intRepr_length_pos (i : Int) : 0 < (Int.repr i).length := by
  cases i with
  | ofNat m => exact natRepr_length_pos m
  | negSucc m =>
    show 0 < ("-" ++ Nat.repr m.succ).length
    rw [String.length_append]
    have := natRepr_length_pos m.succ
    omega

lemma toString_int_length_pos (i : Int) : 0 < (toString i : String).length :=
  intRepr_length_pos i

lemma toString_int_ne_empty (i : Int) : (toString i : String) ≠ "" := by
  intro h
  have hl := congrArg String.length h
  have := toString_int_length_pos i
  simp only [String.length_empty] at hl
  exact absurd hl (by omega)

lemma inet_ntoa_ne_empty (ip : Nat) : inet_ntoa ip ≠ "" := by
  intro h
  have hl := congrArg String.length h
  simp only [inet_ntoa, String.length_append, String.length_empty] at hl
  have := toString_nat_length_pos (ip % 256)
  omega

/-! ### Record-list loop lemmas -/

lemma flatRecords_length (rs : List C2Rec) : (flatRecords rs).length = 8 * rs.length := by
  induction rs with
  | nil => simp [flatRecords]
  | cons r rs ih =>
    simp only [flatRecords, List.length_append, List.length_cons, ih, C2Rec.flat]
    simp
    ring

lemma leVal_four (a0 a1 a2 a3 : Nat) :
    leVal [a0, a1, a2, a3] = a0 + 256 * a1 + 65536 * a2 + 16777216 * a3 := by
  simp [leVal]
  ring

lemma leVal_two (p0 p1 : Nat) : leVal [p0, p1] = p0 + 256 * p1 := by
  simp [leVal]

lemma inet_ntoa_four (a0 a1 a2 a3 : Nat)
    (h0 : a0 < 256) (h1 : a1 < 256) (h2 : a2 < 256) (h3 : a3 < 256) :
    inet_ntoa (a0 + 256 * a1 + 65536 * a2 + 16777216 * a3)
      = toString a3 ++ "." ++ toString a2 ++ "." ++ toString a1 ++ "." ++ toString a0 := by
  have e3 : (a0 + 256 * a1 + 65536 * a2 + 16777216 * a3) / 16777216 % 256 = a3 := by omega
  have e2 : (a0 + 256 * a1 + 65536 * a2 + 16777216 * a3) / 65536 % 256 = a2 := by omega
  have e1 : (a0 + 256 * a1 + 65536 * a2 + 16777216 * a3) / 256 % 256 = a1 := by omega
  have e0 : (a0 + 256 * a1 + 65536 * a2 + 16777216 * a3) % 256 = a0 := by omega
  simp only [inet_ntoa, e0, e1, e2, e3]

lemma snippetLoop_records (records : List C2Rec) (pre rest : List Nat) (fuel : Nat)
    (hw : ∀ r ∈ records, r.wf) (hfuel : records.length < fuel) :
    snippetLoop (pre ++ (flatRecords records ++ ([0, 0, 0, 0] ++ rest))) fuel pre.length
      = Except.ok (records.map C2Rec.epU) := by
  induction records generalizing pre fuel with
  | nil =>
    cases fuel with
    | zero => omega
    | succ f =>
      have hip : readLE 4 (pre ++ (flatRecords [] ++ ([0, 0, 0, 0] ++ rest))) pre.length
          = some (leVal [0, 0, 0, 0]) :=
        readLE_at 4 (pre ++ (flatRecords [] ++ ([0, 0, 0, 0] ++ rest))) pre [0, 0, 0, 0] rest
          pre.length (by simp [flatRecords]) rfl (by simp)
      have h0 : leVal [0, 0, 0, 0] = 0 := rfl
      rw [h0] at hip
      simp only [snippetLoop, hip, List.map_nil]
      simp
  | cons r rs ih =>
    cases fuel with
    | zero => omega
    | succ f =>
      have hwr : r.wf := hw r (List.mem_cons_self r rs)
      obtain ⟨hb0, hb1, hb2, hb3, hp0, hp1, hnz⟩ := hwr
      have hip : readLE 4 (pre ++ (flatRecords (r :: rs) ++ ([0, 0, 0, 0] ++ rest))) pre.length
          = some (leVal [r.a0, r.a1, r.a2, r.a3]) :=
        readLE_at 4 (pre ++ (flatRecords (r :: rs) ++ ([0, 0, 0, 0] ++ rest))) pre
          [r.a0, r.a1, r.a2, r.a3]
          ([r.p0, r.p1, r.x0, r.x1] ++ (flatRecords rs ++ ([0, 0, 0, 0] ++ rest)))
          pre.length (by simp [flatRecords, C2Rec.flat]) rfl (by simp)
      have hne : leVal [r.a0, r.a1, r.a2, r.a3] ≠ 0 := by
        rw [leVal_four]
        omega
      have hport : readLE 2 (pre ++ (flatRecords (r :: rs) ++ ([0, 0, 0, 0] ++ rest)))
          (pre.length + 4) = some (leVal [r.p0, r.p1]) :=
        readLE_at 2 (pre ++ (flatRecords (r :: rs) ++ ([0, 0, 0, 0] ++ rest)))
          (pre ++ [r.a0, r.a1, r.a2, r.a3]) [r.p0, r.p1]
          ([r.x0, r.x1] ++ (flatRecords rs ++ ([0, 0, 0, 0] ++ rest)))
          (pre.length + 4) (by simp [flatRecords, C2Rec.flat]) (by simp) (by simp)
      have hrec := ih (pre ++ r.flat) f (fun x hx => hw x (List.mem_cons_of_mem r hx))
        (by
          have h1 : (r :: rs).length < f + 1 := hfuel
          simp only [List.length_cons] at h1
          omega)
      have hlen8 : (pre ++ r.flat).length = pre.length + 8 := by
        simp [C2Rec.flat]
      have hbufeq : (pre ++ r.flat) ++ (flatRecords rs ++ ([0, 0, 0, 0] ++ rest))
          = pre ++ (flatRecords (r :: rs) ++ ([0, 0, 0, 0] ++ rest)) := by
        simp [flatRecords, C2Rec.flat]
      rw [hlen8, hbufeq] at hrec
      simp only [snippetLoop, hip, hport]
      rw [if_neg hne]
      rw [if_pos ⟨inet_ntoa_ne_empty _, toString_nat_ne_empty _⟩]
      rw [hrec]
      simp only [List.map_cons, Except.ok.injEq, List.cons.injEq]
      constructor
      · rw [leVal_four, leVal_two, inet_ntoa_four r.a0 r.a1 r.a2 r.a3 hb0 hb1 hb2 hb3]
        rfl
      · trivial

lemma primaryLoop_records (records : List C2Rec) (pre rest : List Nat) (fuel : Nat)
    (hw : ∀ r ∈ records, r.wf) (hfuel : records.length < fuel) :
    primaryLoop (pre ++ (flatRecords records ++ ([0, 0, 0, 0] ++ rest))) fuel pre.length
      (headIp records) = Except.ok (records.map C2Rec.epS) := by
  induction records generalizing pre fuel with
  | nil =>
    cases fuel with
    | zero => omega
    | succ f =>
      simp [primaryLoop, headIp]
  | cons r rs ih =>
    cases fuel with
    | zero => omega
    | succ f =>
      have hwr : r.wf := hw r (List.mem_cons_self r rs)
      obtain ⟨hb0, hb1, hb2, hb3, hp0, hp1, hnz⟩ := hwr
      have hne : headIp (r :: rs) ≠ 0 := by
        simp only [headIp]
        rw [leVal_four]
        omega
      have hport : readLE 2 (pre ++ (flatRecords (r :: rs) ++ ([0, 0, 0, 0] ++ rest)))
          (pre.length + 4) = some (leVal [r.p0, r.p1]) :=
        readLE_at 2 (pre ++ (flatRecords (r :: rs) ++ ([0, 0, 0, 0] ++ rest)))
          (pre ++ [r.a0, r.a1, r.a2, r.a3]) [r.p0, r.p1]
          ([r.x0, r.x1] ++ (flatRecords rs ++ ([0, 0, 0, 0] ++ rest)))
          (pre.length + 4) (by simp [flatRecords, C2Rec.flat]) (by simp) (by simp)
      have hnext : readLE 4 (pre ++ (flatRecords (r :: rs) ++ ([0, 0, 0, 0] ++ rest)))
          (pre.length + 8) = some (headIp rs) := by
        cases rs with
        | nil =>
          have := readLE_at 4 (pre ++ (flatRecords [r] ++ ([0, 0, 0, 0] ++ rest)))
            (pre ++ r.flat) [0, 0, 0, 0] rest
            (pre.length + 8) (by simp [flatRecords, C2Rec.flat]) (by simp [C2Rec.flat]) (by simp)
          rw [this]
          rfl
        | cons q qs =>
          have := readLE_at 4 (pre ++ (flatRecords (r :: q :: qs) ++ ([0, 0, 0, 0] ++ rest)))
            (pre ++ r.flat) [q.a0, q.a1, q.a2, q.a3]
            ([q.p0, q.p1, q.x0, q.x1] ++ (flatRecords qs ++ ([0, 0, 0, 0] ++ rest)))
            (pre.length + 8) (by simp [flatRecords, C2Rec.flat]) (by simp [C2Rec.flat]) (by simp)
          rw [this]
          rfl
      have hrec := ih (pre ++ r.flat) f (fun x hx => hw x (List.mem_cons_of_mem r hx))
        (by
          have h1 : (r :: rs).length < f + 1 := hfuel
          simp only [List.length_cons] at h1
          omega)
      have hlen8 : (pre ++ r.flat).length = pre.length + 8 := by
        simp [C2Rec.flat]
      have hbufeq : (pre ++ r.flat) ++ (flatRecords rs ++ ([0, 0, 0, 0] ++ rest))
          = pre ++ (flatRecords (r :: rs) ++ ([0, 0, 0, 0] ++ rest)) := by
        simp [flatRecords, C2Rec.flat]
      rw [hlen8, hbufeq] at hrec
      simp only [primaryLoop]
      rw [if_neg hne]
      simp only [hport, hnext, hrec]
      rw [if_pos ⟨inet_ntoa_ne_empty _, toString_int_ne_empty _⟩]
      simp only [List.map_cons, Except.ok.injEq, List.cons.injEq]
      constructor
      · show inet_ntoa (headIp (r :: rs)) ++ ":" ++ toString (toSigned16 (leVal [r.p0, r.p1]))
          = C2Rec.epS r
        simp only [headIp]
        rw [leVal_four, leVal_two, inet_ntoa_four r.a0 r.a1 r.a2 r.a3 hb0 hb1 hb2 hb3]
        rfl
      · trivial

lemma readLE_headIp (records : List C2Rec) (pre rest : List Nat) :
    readLE 4 (pre ++ (flatRecords records ++ ([0, 0, 0, 0] ++ rest))) pre.length
      = some (headIp records) := by
  cases records with
  | nil =>
    have h := readLE_at 4 (pre ++ (flatRecords [] ++ ([0, 0, 0, 0] ++ rest))) pre
      [0, 0, 0, 0] rest pre.length (by simp [flatRecords]) rfl (by simp)
    rw [h]
    rfl
  | cons q qs =>
    have h := readLE_at 4 (pre ++ (flatRecords (q :: qs) ++ ([0, 0, 0, 0] ++ rest))) pre
      [q.a0, q.a1, q.a2, q.a3]
      ([q.p0, q.p1, q.x0, q.x1] ++ (flatRecords qs ++ ([0, 0, 0, 0] ++ rest)))
      pre.length (by simp [flatRecords, C2Rec.flat]) rfl (by simp)
    rw [h]
    rfl

lemma records_length_le (records : List C2Rec) (pre rest : List Nat) :
    records.length < (pre ++ (flatRecords records ++ ([0, 0, 0, 0] ++ rest))).length + 1 := by
  have h := flatRecords_length records
  simp only [List.length_append]
  omega

/-! ### Claim theorems -/

/-- Claim C3: for a buffer in which a record list starts at the resolved
offset and consists of well-formed 8-byte records followed by an
all-zero address field, decoding emits exactly one endpoint per record,
in file order, rendered as the network-order dotted quad plus the
variant's port value (unsigned in the fallback decoder, signed in the
primary decoder), advancing by 8 per record and stopping at the zero
address. -/
theorem c3_record_list_decode (pre rest : List Nat) (records : List C2Rec)
    (hw : ∀ r ∈ records, r.wf) :
    decodeSnippet (pre ++ (flatRecords records ++ ([0, 0, 0, 0] ++ rest))) pre.length
      = Except.ok (records.map C2Rec.epU)
    ∧ decodePrimary (pre ++ (flatRecords records ++ ([0, 0, 0, 0] ++ rest))) pre.length
      = Except.ok (records.map C2Rec.epS) := by
  constructor
  · exact snippetLoop_records records pre rest _ hw (records_length_le records pre rest)
  · simp only [decodePrimary, readLE_headIp records pre rest]
    exact primaryLoop_records records pre rest _ hw (records_length_le records pre rest)

theorem c3_record_list_decode_witness :
    C2Rec.wf (C2Rec.mk 1 2 3 4 80 0 9 9)
    ∧ C2Rec.wf (C2Rec.mk 5 6 7 8 57 5 0 0)
    ∧ decodeSnippet ([9, 9] ++ (flatRecords [C2Rec.mk 1 2 3 4 80 0 9 9, C2Rec.mk 5 6 7 8 57 5 0 0]
        ++ ([0, 0, 0, 0] ++ [7]))) 2
      = Except.ok ["4.3.2.1:80", "8.7.6.5:1337"]
    ∧ decodePrimary ([9, 9] ++ (flatRecords [C2Rec.mk 1 2 3 4 80 0 9 9, C2Rec.mk 5 6 7 8 57 5 0 0]
        ++ ([0, 0, 0, 0] ++ [7]))) 2
      = Except.ok ["4.3.2.1:80", "8.7.6.5:1337"] := by
  have h := c3_record_list_decode [9, 9] [7]
    [C2Rec.mk 1 2 3 4 80 0 9 9, C2Rec.mk 5 6 7 8 57 5 0 0] (by decide)
  have hs : List.map C2Rec.epU [C2Rec.mk 1 2 3 4 80 0 9 9, C2Rec.mk 5 6 7 8 57 5 0 0]
      = ["4.3.2.1:80", "8.7.6.5:1337"] := rfl
  have hp : List.map C2Rec.epS [C2Rec.mk 1 2 3 4 80 0 9 9, C2Rec.mk 5 6 7 8 57 5 0 0]
      = ["4.3.2.1:80", "8.7.6.5:1337"] := rfl
  have e : ([9, 9] : List Nat).length = 2 := rfl
  rw [e, hs, hp] at h
  exact ⟨by decide, by decide, h.1, h.2⟩

/-- Claim C6: the primary `$c2list` decode loop reads the 2-byte port
field as a signed 16-bit integer ('h') while the fallback-signature
loops read it as unsigned ('H'); a port field value at least 0x8000 is
therefore stringified as a negative literal by the primary loop and as
the unsigned value by every fallback loop. -/
theorem c6_port_signedness (pre rest : List Nat) (r : C2Rec) (hw : r.wf)
    (hport : 32768 ≤ r.p0 + 256 * r.p1) :
    decodePrimary (pre ++ (flatRecords [r] ++ ([0, 0, 0, 0] ++ rest))) pre.length
      = Except.ok [r.addrStr ++ ":" ++ toString ((r.p0 + 256 * r.p1 : Int) - 65536)]
    ∧ decodeSnippet (pre ++ (flatRecords [r] ++ ([0, 0, 0, 0] ++ rest))) pre.length
      = Except.ok [r.addrStr ++ ":" ++ toString (r.p0 + 256 * r.p1)]
    ∧ (r.p0 + 256 * r.p1 : Int) - 65536 < 0 := by
  have hw1 : ∀ x ∈ [r], x.wf := by
    intro x hx
    rw [List.mem_singleton] at hx
    subst hx
    exact hw
  obtain ⟨hb0, hb1, hb2, hb3, hp0, hp1, hnz⟩ := hw
  have hsig : toSigned16 (r.p0 + 256 * r.p1) = (r.p0 + 256 * r.p1 : Int) - 65536 := by
    simp only [toSigned16]
    rw [if_neg (by omega)]
    push_cast
    ring
  refine ⟨?_, ?_, by omega⟩
  · simp only [decodePrimary, readLE_headIp [r] pre rest]
    rw [primaryLoop_records [r] pre rest _ hw1 (records_length_le [r] pre rest)]
    simp only [List.map_cons, List.map_nil, C2Rec.epS]
    rw [hsig]
  · have h2 := snippetLoop_records [r] pre rest _ hw1 (records_length_le [r] pre rest)
    rw [show List.map C2Rec.epU [r]
        = [r.addrStr ++ ":" ++ toString (r.p0 + 256 * r.p1)] from rfl] at h2
    exact h2

theorem c6_port_signedness_witness :
    C2Rec.wf (C2Rec.mk 1 2 3 4 144 159 0 0)
    ∧ 32768 ≤ 144 + 256 * 159
    ∧ decodePrimary (([] : List Nat) ++ (flatRecords [C2Rec.mk 1 2 3 4 144 159 0 0]
        ++ ([0, 0, 0, 0] ++ []))) 0
      = Except.ok ["4.3.2.1:-24688"]
    ∧ decodeSnippet (([] : List Nat) ++ (flatRecords [C2Rec.mk 1 2 3 4 144 159 0 0]
        ++ ([0, 0, 0, 0] ++ []))) 0
      = Except.ok ["4.3.2.1:40848"] := by
  have h := c6_port_signedness [] [] (C2Rec.mk 1 2 3 4 144 159 0 0) (by decide) (by decide)
  have e : (([] : List Nat)).length = 0 := rfl
  rw [e] at h
  refine ⟨by decide, by omega, ?_, ?_⟩
  · rw [h.1]
    rfl
  · rw [h.2.1]
    rfl

/-- Claim C2 (refuted on `$snippet3`, the code slip): when
`raw_va - image_base > 0x20000` the `$snippet3` branch assigns the
masked value to `c2_list_va` and then uses the never-bound
`c2_list_rva`, raising `NameError` instead of passing
`raw_va & 0xFFFF` to the translator.  Concretely: anchor 0, VA
0x430001 read at anchor+2, image base 0x400000 (difference 0x30001).
The parallel `$snippet4` branch does pass `raw_va & 0xFFFF = 1`: the
translator below maps only RVA 1, and the branch reaches the decode
loop instead of erroring. -/
theorem c2_snippet3_mask_bug :
    snippet3Branch [0, 0, 1, 0, 67, 0] 4194304 (fun _ => some 0) 0
      = Except.error PyErr.nameError
    ∧ genericSnippetBranch (List.replicate 8 0 ++ [1, 0, 67, 0]) 4194304
        (fun rva => if rva = 1 then some 100 else none) 8 0
      = Except.ok []
    ∧ Int.land 4390913 65535 = 1 :=
  ⟨rfl, rfl, rfl⟩

/-- Claim C4: dispatch precedence.  When the scan finds `$c2list`, the
run is the primary outcome — a function that consults no other
signature — independently of every other signature's scan result; and
in the fallback chain each alternative's branch — again a function of
the anchor only — is taken as soon as its signature is found, later
alternatives being consulted only on signature absence. -/
theorem c4_dispatch_precedence (buf : List Nat) (ib : Int) (resolve : Int → Option Nat)
    (scan scan2 s3 s4 s5 s6 s7 : String → Option Nat) (a a3 a4 a5 a6 a7 : Nat)
    (h1 : scan "$c2list" = some a) (h2 : scan2 "$c2list" = some a)
    (h33 : s3 "$snippet3" = some a3)
    (h43 : s4 "$snippet3" = none) (h44 : s4 "$snippet4" = some a4)
    (h53 : s5 "$snippet3" = none) (h54 : s5 "$snippet4" = none)
    (h55 : s5 "$snippet5" = some a5)
    (h63 : s6 "$snippet3" = none) (h64 : s6 "$snippet4" = none)
    (h65 : s6 "$snippet5" = none) (h66 : s6 "$snippet6" = some a6)
    (h73 : s7 "$snippet3" = none) (h74 : s7 "$snippet4" = none)
    (h75 : s7 "$snippet5" = none) (h76 : s7 "$snippet6" = none)
    (h77 : s7 "$snippet7" = some a7) :
    emotetRun buf ib resolve scan = primaryOutcome buf a
    ∧ emotetRun buf ib resolve scan = emotetRun buf ib resolve scan2
    ∧ snippetChain buf ib resolve s3 = snippet3Branch buf ib resolve a3
    ∧ snippetChain buf ib resolve s4 = genericSnippetBranch buf ib resolve 8 a4
    ∧ snippetChain buf ib resolve s5 = genericSnippetBranch buf ib resolve 5 a5
    ∧ snippetChain buf ib resolve s6 = genericSnippetBranch buf ib resolve 15 a6
    ∧ snippetChain buf ib resolve s7 = snippet7Branch buf ib resolve a7 := by
  refine ⟨?_, ?_, ?_, ?_, ?_, ?_, ?_⟩
  · simp only [emotetRun, h1]
  · simp only [emotetRun, h1, h2]
  · simp only [snippetChain, h33]
  · simp only [snippetChain, h43, h44]
  · simp only [snippetChain, h53, h54, h55]
  · simp only [snippetChain, h63, h64, h65, h66]
  · simp only [snippetChain, h73, h74, h75, h76, h77]

theorem c4_dispatch_precedence_witness :
    (fun n => if n = "$c2list" then some 5 else some 99 : String → Option Nat) "$c2list" = some 5
    ∧ (fun n => if n = "$c2list" then some 5 else none : String → Option Nat) "$c2list" = some 5
    ∧ (fun n => if n = "$snippet3" then some 3 else if n = "$snippet4" then some 77 else none
        : String → Option Nat) "$snippet3" = some 3
    ∧ emotetRun [] 0 (fun _ => none) (fun n => if n = "$c2list" then some 5 else some 99)
      = primaryOutcome [] 5
    ∧ emotetRun [] 0 (fun _ => none) (fun n => if n = "$c2list" then some 5 else some 99)
      = emotetRun [] 0 (fun _ => none) (fun n => if n = "$c2list" then some 5 else none)
    ∧ snippetChain [] 0 (fun _ => none)
        (fun n => if n = "$snippet3" then some 3 else if n = "$snippet4" then some 77 else none)
      = snippet3Branch [] 0 (fun _ => none) 3 := by
  have h := c4_dispatch_precedence [] 0 (fun _ => none)
    (fun n => if n = "$c2list" then some 5 else some 99)
    (fun n => if n = "$c2list" then some 5 else none)
    (fun n => if n = "$snippet3" then some 3 else if n = "$snippet4" then some 77 else none)
    (fun n => if n = "$snippet4" then some 4 else none)
    (fun n => if n = "$snippet5" then some 6 else none)
    (fun n => if n = "$snippet6" then some 7 else none)
    (fun n => if n = "$snippet7" then some 8 else none)
    5 3 4 6 7 8 rfl rfl rfl rfl rfl rfl rfl rfl rfl rfl rfl rfl rfl rfl rfl rfl rfl
  exact ⟨rfl, rfl, rfl, h.1, h.2.1, h.2.2.1⟩

lemma findString_none_of_closed (strs : List (Nat × String))
    (hclosed : ∀ p ∈ strs, p.2 ∈ ruleStrings) :
    findString "$c2list" strs = none := by
  induction strs with
  | nil => rfl
  | cons p rest ih =>
    obtain ⟨off, ident⟩ := p
    have hmem : ident ∈ ruleStrings := hclosed (off, ident) (List.mem_cons_self _ _)
    have hne : ident ≠ "$c2list" := by
      intro h
      subst h
      revert hmem
      decide
    simp only [findString]
    rw [if_neg hne]
    exact ih (fun q hq => hclosed q (List.mem_cons_of_mem _ hq))

lemma yara_scan_c2list_none (ms : List YMatch)
    (hclosed : ∀ m ∈ ms, ∀ p ∈ m.strings, p.2 ∈ ruleStrings) :
    yara_scan ms "$c2list" = none := by
  induction ms with
  | nil => rfl
  | cons m rest ih =>
    have hf : findString "$c2list" m.strings = none :=
      findString_none_of_closed _ (hclosed m (List.mem_cons_self _ _))
    have hrest := ih (fun q hq p hp => hclosed q (List.mem_cons_of_mem _ hq) p hp)
    simp only [yara_scan, hf]
    split
    · exact hrest
    · exact hrest

/-- Claim C9: the compiled rule defines no string named `$c2list`, so
`yara_scan` can never report one — whatever the engine's matches are,
their identifiers come from the rule's string set — and the run always
takes the `$c2list`-absent path, never the primary branch. -/
theorem c9_no_c2list_string (ms : List YMatch) (buf : List Nat) (ib : Int)
    (resolve : Int → Option Nat)
    (hclosed : ∀ m ∈ ms, ∀ p ∈ m.strings, p.2 ∈ ruleStrings) :
    "$c2list" ∉ ruleStrings
    ∧ yara_scan ms "$c2list" = none
    ∧ emotetRun buf ib resolve (fun n => yara_scan ms n)
      = fallbackOutcome buf ib resolve (fun n => yara_scan ms n) := by
  have h0 := yara_scan_c2list_none ms hclosed
  refine ⟨by decide, h0, ?_⟩
  simp only [emotetRun, h0]

theorem c9_no_c2list_string_witness :
    yara_scan [YMatch.mk "Emotet" [(3, "$snippet3"), (9, "$ref_rsa")]] "$c2list" = none
    ∧ emotetRun [] 0 (fun _ => none)
        (fun n => yara_scan [YMatch.mk "Emotet" [(3, "$snippet3"), (9, "$ref_rsa")]] n)
      = fallbackOutcome [] 0 (fun _ => none)
        (fun n => yara_scan [YMatch.mk "Emotet" [(3, "$snippet3"), (9, "$ref_rsa")]] n) := by
  have h := c9_no_c2list_string [YMatch.mk "Emotet" [(3, "$snippet3"), (9, "$ref_rsa")]]
    [] 0 (fun _ => none) (by decide)
  exact ⟨h.2.1, h.2.2⟩

lemma findRsaPattern_none_of_short (buf : List Nat) (h : buf.length < 108) :
    findRsaPattern buf = none := by
  simp only [findRsaPattern]
  apply List.find?_eq_none.mpr
  intro i hi
  rw [List.mem_range] at hi
  simp only [rsaPatternAt, Bool.and_eq_true, decide_eq_true_eq]
  intro hc
  omega

lemma extract_none_of_short (buf : List Nat) (h : buf.length < 108) :
    extract_emotet_rsakey buf = Except.ok none := by
  simp only [extract_emotet_rsakey, findRsaPattern_none_of_short buf h]

/-- Claim C7: on a buffer too short to contain any required field — in
particular shorter than the 108-byte direct-key pattern, so that no
signature and no key pattern can be located — the run returns zero
endpoints and no key, with no error. -/
theorem c7_short_buffer_safe (buf : List Nat) (ib : Int) (resolve : Int → Option Nat)
    (scan : String → Option Nat)
    (hlen : buf.length < 108)
    (hc : scan "$c2list" = none) (h3 : scan "$snippet3" = none)
    (h4 : scan "$snippet4" = none) (h5 : scan "$snippet5" = none)
    (h6 : scan "$snippet6" = none) (h7 : scan "$snippet7" = none)
    (hr : scan "$ref_rsa" = none) :
    emotetRun buf ib resolve scan = Except.ok (Report.mk [] []) := by
  simp only [emotetRun, hc, fallbackOutcome, extract_none_of_short buf hlen,
    snippetChain, h3, h4, h5, h6, h7, refRsaPart, hr]

theorem c7_short_buffer_safe_witness :
    List.length ([] : List Nat) < 108
    ∧ (fun (_ : String) => (none : Option Nat)) "$c2list" = none
    ∧ emotetRun [] 0 (fun _ => none) (fun _ => none) = Except.ok (Report.mk [] []) :=
  ⟨by decide, rfl,
    c7_short_buffer_safe [] 0 (fun _ => none) (fun _ => none)
      (by decide) rfl rfl rfl rfl rfl rfl rfl⟩

/-- Claim C10: in the obfuscated-key path `xorsize` is the XOR of two
unsigned 32-bit little-endian reads — a non-negative value below 2^32 —
and when `offset+8+xorsize` overruns the buffer the blob slice silently
truncates to the available bytes, the DER decoder being invoked on the
xored truncated slice rather than any bounds fault occurring. -/
theorem c10_xorsize_truncation (buf : List Nat) (o key w : Nat)
    (hb : ∀ b ∈ buf, b < 256)
    (hk : readLE 4 buf o = some key) (hw : readLE 4 buf (o + 4) = some w)
    (htrunc : buf.length < o + 8 + (key ^^^ w)) :
    (0 : Int) ≤ ((key ^^^ w : Nat) : Int)
    ∧ (key ^^^ w) < 4294967296
    ∧ (pySlice buf (o + 8) (o + 8 + (key ^^^ w))).length = buf.length - (o + 8)
    ∧ refRsaDecodeAt buf o
      = derToRes (xor_data (pySlice buf (o + 8) (o + 8 + (key ^^^ w))) (u32le key)) := by
  have hk32 : key < 2 ^ 32 := by
    have h := readLE_lt 4 buf o key hb hk
    norm_num at h ⊢
    omega
  have hw32 : w < 2 ^ 32 := by
    have h := readLE_lt 4 buf (o + 4) w hb hw
    norm_num at h ⊢
    omega
  have hx : key ^^^ w < 2 ^ 32 := Nat.xor_lt_two_pow hk32 hw32
  refine ⟨Int.natCast_nonneg _, by norm_num at hx ⊢; omega, ?_, ?_⟩
  · rw [pySlice_length]
    omega
  · simp only [refRsaDecodeAt, hk, hw]

theorem c10_xorsize_truncation_witness :
    readLE 4 [0, 0, 0, 0, 5, 0, 0, 0, 9, 9] 0 = some 0
    ∧ readLE 4 [0, 0, 0, 0, 5, 0, 0, 0, 9, 9] 4 = some 5
    ∧ List.length [0, 0, 0, 0, 5, 0, 0, 0, 9, 9] < 0 + 8 + (0 ^^^ 5)
    ∧ (pySlice [0, 0, 0, 0, 5, 0, 0, 0, 9, 9] 8 (0 + 8 + (0 ^^^ 5))).length
        = List.length [0, 0, 0, 0, 5, 0, 0, 0, 9, 9] - 8
    ∧ refRsaDecodeAt [0, 0, 0, 0, 5, 0, 0, 0, 9, 9] 0
        = derToRes (xor_data (pySlice [0, 0, 0, 0, 5, 0, 0, 0, 9, 9] 8 (0 + 8 + (0 ^^^ 5)))
            (u32le 0)) := by
  have h := c10_xorsize_truncation [0, 0, 0, 0, 5, 0, 0, 0, 9, 9] 0 0 5
    (by decide) rfl rfl (by decide)
  exact ⟨rfl, rfl, by decide, h.2.2.1, h.2.2.2⟩

/-- Claim C5: obfuscation round-trip.  If at the resolved `$ref_rsa`
offset the buffer holds the little-endian `key`, then `key XOR K`
(`K` the blob length), then the blob masked byte-wise with `key`'s
little-endian bytes, the obfuscated-key procedure recovers exactly the
(modulus, exponent) pair encoded by the plaintext blob. -/
theorem c5_obfuscated_key_roundtrip (pre suffix blob : List Nat) (key m e : Nat)
    (buf : List Nat) (ib : Int) (resolve : Int → Option Nat) (scan : String → Option Nat)
    (r : Nat) (va : Int) (addrs : List String)
    (hbuf : buf = pre ++ (u32le key ++ (u32le (key ^^^ blob.length)
      ++ (xor_data blob (u32le key) ++ suffix))))
    (hkey : key < 4294967296) (hK : blob.length < 4294967296)
    (hder : derDecodeTwoInts blob = some (m, e))
    (hscan : scan "$ref_rsa" = some r)
    (hva : readS4 buf (r + 28) = some va)
    (hres : resolve (va - ib) = some pre.length) :
    refRsaPart buf ib resolve scan none addrs = Except.ok (Report.mk addrs [(m, e)]) := by
  have hkread : readLE 4 buf pre.length = some key := by
    have h := readLE_at 4 buf pre (u32le key)
      (u32le (key ^^^ blob.length) ++ (xor_data blob (u32le key) ++ suffix))
      pre.length hbuf rfl (u32le_length key)
    rw [h, leVal_u32le key hkey]
  have hxk : key ^^^ blob.length < 4294967296 := by
    have h1 : key < 2 ^ 32 := by norm_num; omega
    have h2 : blob.length < 2 ^ 32 := by norm_num; omega
    have h3 := Nat.xor_lt_two_pow h1 h2
    norm_num at h3
    omega
  have hwread : readLE 4 buf (pre.length + 4) = some (key ^^^ blob.length) := by
    have h := readLE_at 4 buf (pre ++ u32le key) (u32le (key ^^^ blob.length))
      (xor_data blob (u32le key) ++ suffix) (pre.length + 4)
      (by rw [hbuf]; simp [List.append_assoc])
      (by simp [u32le_length])
      (u32le_length _)
    rw [h, leVal_u32le _ hxk]
  have hxorsize : key ^^^ (key ^^^ blob.length) = blob.length :=
    Nat.xor_cancel_left key blob.length
  have hblob : pySlice buf (pre.length + 8) (pre.length + 8 + blob.length)
      = xor_data blob (u32le key) := by
    have hA : ((pre ++ u32le key) ++ u32le (key ^^^ blob.length)).length = pre.length + 8 := by
      simp [u32le_length]
    have hX : (xor_data blob (u32le key)).length = blob.length := xor_data_length _ _
    have h := pySlice_append ((pre ++ u32le key) ++ u32le (key ^^^ blob.length))
      (xor_data blob (u32le key)) suffix
    rw [hA, hX] at h
    rw [show buf = ((pre ++ u32le key) ++ u32le (key ^^^ blob.length))
        ++ (xor_data blob (u32le key) ++ suffix) from by rw [hbuf]; simp [List.append_assoc]]
    exact h
  have hdec : refRsaDecodeAt buf pre.length = Except.ok (m, e) := by
    simp only [refRsaDecodeAt, hkread, hwread, hxorsize, hblob]
    rw [xor_data_invol]
    simp only [derToRes, hder]
  simp only [refRsaPart, hscan, hva, hres, hdec]

theorem c5_obfuscated_key_roundtrip_witness :
    derDecodeTwoInts [48, 6, 2, 1, 3, 2, 1, 5] = some (3, 5)
    ∧ refRsaPart ([] ++ (u32le 4660 ++ (u32le (4660 ^^^ (8 : Nat))
          ++ (xor_data [48, 6, 2, 1, 3, 2, 1, 5] (u32le 4660) ++ List.replicate 20 0))))
        0 (fun v => if v = 0 then some 0 else none)
        (fun n => if n = "$ref_rsa" then some 0 else none) none []
      = Except.ok (Report.mk [] [(3, 5)]) := by
  have h := c5_obfuscated_key_roundtrip [] (List.replicate 20 0) [48, 6, 2, 1, 3, 2, 1, 5]
    4660 3 5
    ([] ++ (u32le 4660 ++ (u32le (4660 ^^^ (8 : Nat))
      ++ (xor_data [48, 6, 2, 1, 3, 2, 1, 5] (u32le 4660) ++ List.replicate 20 0))))
    0 (fun v => if v = 0 then some 0 else none)
    (fun n => if n = "$ref_rsa" then some 0 else none) 0 0 []
    rfl (by decide) (by decide) rfl rfl rfl rfl
  exact ⟨rfl, h⟩

/-- Claim C1 counterexample: the run does fail outright on some inputs.
With `$ref_rsa` anchored at 0 on an all-zero 44-byte buffer and a
translator mapping RVA 0 to offset 32, the obfuscated-key attempt reads
`key = 0`, `xorsize = 0`, hands the empty blob to the DER decoder, and
the decode failure propagates as an uncaught error. -/
theorem c1_counterexample :
    emotetRun (List.replicate 44 0) 0 (fun rva => if rva = 0 then some 32 else none)
      (fun n => if n = "$ref_rsa" then some 0 else none)
      = Except.error PyErr.derError := rfl

/-- Claim C1 as amended: signature absence, bounds violations on the
record-list address read, and RefRSA translation failure are locally
absorbed, with the worst case reporting zero endpoints and no key —
but a DER-decode failure in the obfuscated-key path (and bounds or
unbound-name errors elsewhere) propagates as a hard error. -/
theorem c1_failure_absorption (buf : List Nat) (ib : Int) (resolve : Int → Option Nat)
    (scan : String → Option Nat) (a : Nat) (va : Int) (off : Nat)
    (hpem : extract_emotet_rsakey buf = Except.ok none)
    (hc : scan "$c2list" = none) (h3 : scan "$snippet3" = none)
    (h4 : scan "$snippet4" = some a)
    (hva : readS4 buf (a + 8) = some va)
    (hres : resolve (if va - ib > 131072 then Int.land va 65535 else va - ib) = some off)
    (hoff : buf.length < off + 4)
    (hr : scan "$ref_rsa" = none) :
    emotetRun buf ib resolve scan = Except.ok (Report.mk [] []) := by
  have hip : readLE 4 buf off = none := readLE_none_of_short 4 buf off (by omega) (by omega)
  have hloop : decodeSnippet buf off = Except.ok [] := by
    simp only [decodeSnippet, snippetLoop, hip]
  have hchain : snippetChain buf ib resolve scan = Except.ok [] := by
    simp only [snippetChain, h3, h4, genericSnippetBranch, hva, hres, hloop]
  simp only [emotetRun, hc, fallbackOutcome, hpem, hchain, refRsaPart, hr]

theorem c1_failure_absorption_witness :
    extract_emotet_rsakey (List.replicate 12 0) = Except.ok none
    ∧ readS4 (List.replicate 12 0) 8 = some 0
    ∧ List.length (List.replicate 12 (0 : Nat)) < 100 + 4
    ∧ emotetRun (List.replicate 12 0) 0 (fun v => if v = 0 then some 100 else none)
        (fun n => if n = "$snippet4" then some 0 else none)
      = Except.ok (Report.mk [] []) := by
  have h := c1_failure_absorption (List.replicate 12 0) 0
    (fun v => if v = 0 then some 100 else none)
    (fun n => if n = "$snippet4" then some 0 else none) 0 0 100
    rfl rfl rfl rfl rfl rfl (by decide) rfl
  exact ⟨rfl, rfl, by decide, h⟩

/-- Claim C8 counterexample: a translation failure for a found
list-discovery variant does NOT advance dispatch to the next
alternative.  `$snippet3` is found at 0 (its RVA 0 is unmapped) and
`$snippet4` is found at 10 with a perfectly decodable record list at
the offset its pointer maps to; the run aborts with the `NameError` of
the undefined `except PEFormatError` handler instead of reporting
`$snippet4`'s endpoint, which the second conjunct shows the `$snippet4`
branch would have produced. -/
theorem c8_counterexample :
    emotetRun
      [0, 0, 0, 0, 0, 0, 0, 0, 0, 0,
       0, 0, 0, 0, 0, 0, 0, 0, 60, 0,
       0, 0, 0, 0, 0, 0, 0, 0, 0, 0,
       0, 0, 0, 0, 0, 0, 0, 0, 0, 0,
       1, 0, 0, 10, 80, 0, 0, 0,
       0, 0, 0, 0] 0
      (fun v => if v = 60 then some 40 else none)
      (fun n => if n = "$snippet3" then some 0 else if n = "$snippet4" then some 10 else none)
      = Except.error PyErr.nameError
    ∧ genericSnippetBranch
      [0, 0, 0, 0, 0, 0, 0, 0, 0, 0,
       0, 0, 0, 0, 0, 0, 0, 0, 60, 0,
       0, 0, 0, 0, 0, 0, 0, 0, 0, 0,
       0, 0, 0, 0, 0, 0, 0, 0, 0, 0,
       1, 0, 0, 10, 80, 0, 0, 0,
       0, 0, 0, 0] 0
      (fun v => if v = 60 then some 40 else none) 8 10
      = Except.ok ["10.0.0.1:80"] :=
  ⟨rfl, rfl⟩

/-- Claim C8 as amended: a translation failure for a found
list-discovery variant is fatal — the handler names the undefined
`PEFormatError`, so the run aborts with `NameError` and does not
advance to the next alternative; a translation failure during the
RefRSA attempt is absorbed by its bare `except: return`, fatal to that
key-extraction attempt only, the run completing with the endpoints
found so far. -/
theorem c8_unmapped_translation
    (buf buf2 : List Nat) (ib ib2 : Int) (resolve resolve2 : Int → Option Nat)
    (scan scan2 : String → Option Nat) (a r : Nat) (va vr : Int) (pem : Option (Nat × Nat))
    (hpem : extract_emotet_rsakey buf = Except.ok pem)
    (hc : scan "$c2list" = none) (h3 : scan "$snippet3" = some a)
    (hva : readS4 buf (a + 2) = some va) (hle : va - ib ≤ 131072)
    (hres : resolve (va - ib) = none)
    (hpem2 : extract_emotet_rsakey buf2 = Except.ok none)
    (hc2 : scan2 "$c2list" = none) (h32 : scan2 "$snippet3" = none)
    (h42 : scan2 "$snippet4" = none) (h52 : scan2 "$snippet5" = none)
    (h62 : scan2 "$snippet6" = none) (h72 : scan2 "$snippet7" = none)
    (hr2 : scan2 "$ref_rsa" = some r)
    (hvr : readS4 buf2 (r + 28) = some vr)
    (hres2 : resolve2 (vr - ib2) = none) :
    emotetRun buf ib resolve scan = Except.error PyErr.nameError
    ∧ emotetRun buf2 ib2 resolve2 scan2 = Except.ok (Report.mk [] []) := by
  constructor
  · have hchain : snippetChain buf ib resolve scan = Except.error PyErr.nameError := by
      simp only [snippetChain, h3, snippet3Branch, hva]
      rw [if_neg (by omega)]
      simp only [hres]
    simp only [emotetRun, hc, fallbackOutcome, hpem, hchain]
  · simp only [emotetRun, hc2, fallbackOutcome, hpem2, snippetChain, h32, h42, h52, h62, h72,
      refRsaPart, hr2, hvr, hres2]

theorem c8_unmapped_translation_witness :
    (fun n => if n = "$snippet3" then some 0 else (none : Option Nat)) "$snippet3" = some 0
    ∧ readS4 (List.replicate 6 0) 2 = some 0
    ∧ emotetRun (List.replicate 6 0) 0 (fun _ => none)
        (fun n => if n = "$snippet3" then some 0 else none)
      = Except.error PyErr.nameError
    ∧ emotetRun (List.replicate 32 0) 0 (fun _ => none)
        (fun n => if n = "$ref_rsa" then some 0 else none)
      = Except.ok (Report.mk [] []) := by
  have h := c8_unmapped_translation (List.replicate 6 0) (List.replicate 32 0) 0 0
    (fun _ => none) (fun _ => none)
    (fun n => if n = "$snippet3" then some 0 else none)
    (fun n => if n = "$ref_rsa" then some 0 else none)
    0 0 0 0 none
    rfl rfl rfl rfl (by decide) rfl rfl rfl rfl rfl rfl rfl rfl rfl rfl rfl
  exact ⟨rfl, rfl, h.1, h.2⟩
